import Mathlib

/-!
Verification of the client-side change-tracking and reconciliation logic of
the SharePoint Excel interface (src/app/static/js/app.js), as a shallow
embedding.  JavaScript primitive values are modelled by `JsValue`, plain
objects by insertion-ordered association lists with unique-key updates, the
pending-changes `Map` likewise, and each async handler by a pure function
from its inputs and the responses the backend would return to the network
calls it issues, the toasts it shows and the resulting client state.
-/

set_option autoImplicit false

/-- A JavaScript primitive value as it occurs in grid cells and row objects:
a string, a (numeric) value modelled as an integer, a boolean, `null`, or
`undefined` (the result of reading an absent property). -/
inductive JsValue where
  | vStr (s : String)
  | vNum (n : Int)
  | vBool (b : Bool)
  | vNull
  | vUndef
  deriving DecidableEq, Repr

namespace JsValue

/-- JavaScript falsiness: `""`, `0`, `false`, `null` and `undefined` are
falsy; everything else is truthy. -/
def falsy : JsValue → Bool
  | vStr s => s == ""
  | vNum n => n == 0
  | vBool b => !b
  | vNull => true
  | vUndef => true

/-- JavaScript truthiness, used by `if (x)` and `x || y`. -/
def truthy (v : JsValue) : Bool := !v.falsy

/-- Rendering of a value into a string, as done by template-literal
interpolation; also used here to model `Map` keys as strings. -/
def render : JsValue → String
  | vStr s => s
  | vNum n => toString n
  | vBool true => "true"
  | vBool false => "false"
  | vNull => "null"
  | vUndef => "undefined"

end JsValue

/-- A JavaScript plain object: key-value pairs in insertion order.  Keys are
unique when the object is built by property assignment (`objSet`). -/
abbrev Obj := List (String × JsValue)

/-- Property read `o[k]`: the value at the first occurrence of key `k`,
`undefined` when absent. -/
def getField (o : Obj) (k : String) : JsValue :=
  match o with
  | [] => .vUndef
  | (k1, v) :: rest => if k1 == k then v else getField rest k

/-- Property write `o[k] = v`: overwrite the existing entry in place, else
append (JavaScript objects preserve insertion order). -/
def objSet (o : Obj) (k : String) (v : JsValue) : Obj :=
  match o with
  | [] => [(k, v)]
  | (k1, v1) :: rest => if k1 == k then (k1, v) :: rest else (k1, v1) :: objSet rest k v

/-- The `in`-operator view used for specification: does the object carry key `k`. -/
def hasField (o : Obj) (k : String) : Bool := o.any (fun p => p.1 == k)

/-- Spread merge of two objects, as in the saveAllChanges create path:
start from `a` and assign every entry of `b` over it in order, so keys of
`b` take precedence. -/
def mergeObjs (a b : Obj) : Obj := b.foldl (fun acc p => objSet acc p.1 p.2) a

/-- A field definition as delivered by `/api/fields`: name, display title,
type tag (the source switches on strings such as "Number"), required flag
and choice list. -/
structure FieldDef where
  name : String
  title : String
  type : String
  required : Bool
  choices : List String
  deriving DecidableEq, Repr

/-- Embeds `validateRowData(data)` (app.js lines 354-364): for each field with
`field.required` and falsy-or-empty submitted value (the source condition
tests `!data[field.name]` and `data[field.name] === ""`) push the
message `<title> is required`. -/
def validateRowData (fields : List FieldDef) (data : Obj) : List String :=
  fields.foldl
    (fun errors f =>
      if f.required && ((getField data f.name).falsy || (getField data f.name == JsValue.vStr "")) then
        errors ++ [f.title ++ " is required"]
      else errors)
    []

/-- The condition named by the specification for a validation error: the
submitted value is absent or the empty string. -/
def absentOrEmpty (v : JsValue) : Bool := v == JsValue.vUndef || v == JsValue.vStr ""

/-- One pending-change entry (app.js line 211): the snapshot of `event.data`
taken when the entry is created, and the map of edited fields. -/
structure PendingEntry where
  original : Obj
  changes : Obj
  deriving DecidableEq, Repr

/-- The `pendingChanges` JavaScript `Map`, in insertion order. -/
abbrev PendingMap := List (String × PendingEntry)

/-- JavaScript `Map.has`. -/
def mapHas (m : PendingMap) (k : String) : Bool := m.any (fun p => p.1 == k)

/-- JavaScript `Map.get`. -/
def mapGet (m : PendingMap) (k : String) : Option PendingEntry :=
  match m with
  | [] => none
  | (k1, e) :: rest => if k1 == k then some e else mapGet rest k

/-- JavaScript `Map.set`: overwrite in place when the key exists, else append
(JavaScript `Map` preserves insertion order). -/
def mapSet (m : PendingMap) (k : String) (e : PendingEntry) : PendingMap :=
  match m with
  | [] => [(k, e)]
  | (k1, e1) :: rest => if k1 == k then (k1, e) :: rest else (k1, e1) :: mapSet rest k e

/-- In-place mutation of the entry returned by `Map.get`, as done by
`this.pendingChanges.get(rowId).changes[fieldName] = newValue`. -/
def mapModify (m : PendingMap) (k : String) (f : PendingEntry → PendingEntry) : PendingMap :=
  match m with
  | [] => []
  | (k1, e) :: rest => if k1 == k then (k1, f e) :: rest else (k1, e) :: mapModify rest k f

/-- A cell-editing-stopped event as consumed by `onCellChanged`: the row
data attached to the event, the edited column field, and the new and old
cell values. -/
structure CellEvent where
  data : Obj
  field : String
  newValue : JsValue
  oldValue : JsValue
  deriving DecidableEq, Repr

/-- The row key from app.js line 203: `event.data.ID`, or when that is
falsy the concatenation of `new_` and `Date.now()`.
In JavaScript the `Map` key is the raw `ID` value when truthy; keys are
modelled as strings via `JsValue.render`, which is faithful whenever backend
IDs are strings (the only case in which `rowId.startsWith` in
`saveAllChanges` does not throw). -/
def rowIdOf (data : Obj) (now : Nat) : String :=
  let id := getField data "ID"
  if id.truthy then id.render else "new_" ++ toString now

/-- Embeds `onCellChanged(event)` (app.js lines 202-222), restricted to its effect
on `pendingChanges`; `now` is the value `Date.now()` returns during the
handler. -/
def onCellChanged (pending : PendingMap) (ev : CellEvent) (now : Nat) : PendingMap :=
  let rowId := rowIdOf ev.data now
  if ev.newValue != ev.oldValue then
    let pending1 :=
      if mapHas pending rowId then pending
      else mapSet pending rowId ⟨ev.data, []⟩
    mapModify pending1 rowId (fun e => ⟨e.original, objSet e.changes ev.field ev.newValue⟩)
  else
    pending

/-- A sequence of cell edits, each paired with its `Date.now()` timestamp,
applied in order. -/
def runEdits (pending : PendingMap) (evs : List (CellEvent × Nat)) : PendingMap :=
  evs.foldl (fun p en => onCellChanged p en.1 en.2) pending

/-- A bulk operation built by `saveAllChanges`. -/
inductive Operation where
  | create (data : Obj)
  | update (id : String) (data : Obj)
  deriving DecidableEq, Repr

/-- The operation-building loop of `saveAllChanges` (app.js lines 406-421):
create with the spread merge of original and changes when the key starts
with `new_`, else update carrying only the changes. -/
def buildOperations (pending : PendingMap) : List Operation :=
  pending.foldl
    (fun operations kv =>
      if kv.1.startsWith "new_" then
        operations ++ [Operation.create (mergeObjs kv.2.original kv.2.changes)]
      else
        operations ++ [Operation.update kv.1 kv.2.changes])
    []

/-- A network request issued by the client. -/
inductive NetCall where
  | getFields
  | getData
  | postItem (data : Obj)
  | deleteItem (id : String)
  | postBulk (ops : List Operation)
  deriving DecidableEq, Repr

/-- A toast shown to the user. -/
inductive Toast where
  | info (msg : String)
  | success (msg : String)
  | error (msg : String)
  deriving DecidableEq, Repr

/-- The parsed response of `GET /api/fields`. -/
structure FieldsResp where
  error : JsValue
  fields : List FieldDef
  deriving Repr

/-- The parsed response of `GET /api/data`. -/
structure DataResp where
  error : JsValue
  items : List Obj
  total : Nat
  deriving Repr

/-- The parsed response of `POST /api/bulk`. `errors` stands for the string
`JSON.stringify(result.errors)` that the client embeds in its message. -/
structure BulkResp where
  success : Bool
  errors : String
  deriving Repr

/-- The parsed response of `POST /api/item`. -/
structure ItemResp where
  success : Bool
  error : JsValue
  deriving Repr

/-- Observable outcome of `loadInitialData` (app.js lines 97-134): the
requests issued and the error banner shown, if any. -/
structure LoadOutcome where
  calls : List NetCall
  errorShown : Option String
  deriving DecidableEq, Repr

/-- Embeds `loadInitialData()`: fetch the fields; on a truthy `error` property stop
and show it; otherwise fetch the data and likewise check its `error`. -/
def loadInitialData (fr : FieldsResp) (dr : DataResp) : LoadOutcome :=
  if fr.error.truthy then
    ⟨[NetCall.getFields], some fr.error.render⟩
  else if dr.error.truthy then
    ⟨[NetCall.getFields, NetCall.getData], some dr.error.render⟩
  else
    ⟨[NetCall.getFields, NetCall.getData], none⟩

/-- Outcome of `refreshData` (app.js lines 448-453): requests issued and the
pending map afterwards. -/
structure RefreshOutcome where
  calls : List NetCall
  pending : PendingMap
  deriving DecidableEq, Repr

/-- Embeds `refreshData()`: reload via `loadInitialData` and then clear the whole
pending map, whatever it held. -/
def refreshData (fr : FieldsResp) (dr : DataResp) (_pending : PendingMap) : RefreshOutcome :=
  ⟨(loadInitialData fr dr).calls, []⟩

/-- Observable outcome of `saveAllChanges`: requests issued, toasts shown,
and the pending map afterwards. -/
structure SaveOutcome where
  calls : List NetCall
  toasts : List Toast
  pending : PendingMap
  deriving DecidableEq, Repr

/-- Embeds `saveAllChanges()` (app.js lines 400-446).  `bulk` maps the submitted
operation list to the parsed `/api/bulk` response; `fr` and `dr` are the
responses the subsequent `refreshData` would receive.  An empty pending map
short-circuits with an info toast.  On `result.success` the pending map is
cleared and `refreshData` runs; otherwise the thrown aggregate message is
caught and shown, leaving the pending map untouched. -/
def saveAllChanges (pending : PendingMap) (bulk : List Operation → BulkResp)
    (fr : FieldsResp) (dr : DataResp) : SaveOutcome :=
  if pending.length == 0 then
    ⟨[], [Toast.info "No changes to save"], pending⟩
  else
    let operations := buildOperations pending
    let result := bulk operations
    if result.success then
      let refreshed := refreshData fr dr []
      ⟨NetCall.postBulk operations :: refreshed.calls,
       [Toast.success "All changes saved successfully"],
       refreshed.pending⟩
    else
      ⟨[NetCall.postBulk operations],
       [Toast.error ("Error saving changes: " ++ ("Some operations failed: " ++ result.errors))],
       pending⟩

/-- Observable outcome of `saveRowFromModal`: requests issued, toasts shown,
and the pending map afterwards. -/
structure ModalOutcome where
  calls : List NetCall
  toasts : List Toast
  pending : PendingMap
  deriving DecidableEq, Repr

/-- Embeds `saveRowFromModal()` (app.js lines 305-352), from the already-converted
form object `data`: validation errors block submission with an error toast
and no request; otherwise `POST /api/item` is issued and, on
`result.success`, `refreshData` runs (clearing the pending map). -/
def saveRowFromModal (fields : List FieldDef) (data : Obj) (item : ItemResp)
    (fr : FieldsResp) (dr : DataResp) (pending : PendingMap) : ModalOutcome :=
  let errors := validateRowData fields data
  if errors.length > 0 then
    ⟨[], [Toast.error ("Please fix the following errors:\n" ++ String.intercalate "\n" errors)],
     pending⟩
  else if item.success then
    let refreshed := refreshData fr dr pending
    ⟨NetCall.postItem data :: refreshed.calls,
     [Toast.success "Row added successfully"],
     refreshed.pending⟩
  else
    ⟨[NetCall.postItem data],
     [Toast.error ("Error adding row: "
        ++ (if item.error.truthy then item.error.render else "Failed to add row"))],
     pending⟩

/-- The sequential delete loop inside `deleteSelectedRows` (app.js lines
380-388): one `DELETE /api/item/<ID>` per selected row in order; a non-ok
response throws, aborting the loop with the message naming that row.
`ok` maps a row id to whether its delete response was ok. -/
def deleteLoop (rows : List Obj) (ok : String → Bool) : List NetCall × Option String :=
  match rows with
  | [] => ([], none)
  | row :: rest =>
    let id := (getField row "ID").render
    if ok id then
      let r := deleteLoop rest ok
      (NetCall.deleteItem id :: r.1, r.2)
    else
      ([NetCall.deleteItem id], some ("Failed to delete row " ++ id))

/-- Observable outcome of `deleteSelectedRows`: requests issued and toasts
shown. -/
structure DeleteOutcome where
  calls : List NetCall
  toasts : List Toast
  deriving DecidableEq, Repr

/-- Embeds `deleteSelectedRows()` (app.js lines 366-398) with the confirmation
dialog answered positively: an empty selection only shows an error toast;
otherwise the delete loop runs, followed on full success by a success toast
and `refreshData`, and on a failure by an error toast naming the failed
row. -/
def deleteSelectedRows (rows : List Obj) (ok : String → Bool)
    (fr : FieldsResp) (dr : DataResp) : DeleteOutcome :=
  if rows.length == 0 then
    ⟨[], [Toast.error "Please select rows to delete"]⟩
  else
    let r := deleteLoop rows ok
    match r.2 with
    | none =>
      ⟨r.1 ++ (loadInitialData fr dr).calls,
       [Toast.success (toString rows.length ++ " row(s) deleted successfully")]⟩
    | some msg => ⟨r.1, [Toast.error ("Error deleting rows: " ++ msg)]⟩

/-- An edit event is effective when the handler condition
`newValue !== oldValue` holds. -/
def effectiveEv (ev : CellEvent) : Bool := ev.newValue != ev.oldValue

/-- The (field, newValue) pair an event writes. -/
def editOf (ev : CellEvent) : String × JsValue := (ev.field, ev.newValue)

/-- Specification-side accumulation of a list of writes into an object:
last write per field wins. -/
def lastWrites (edits : List (String × JsValue)) : Obj :=
  edits.foldl (fun o q => objSet o q.1 q.2) []

/-- The last value written for field `f` across a list of writes,
`undefined` if never written. -/
def lastValueWritten (edits : List (String × JsValue)) (f : String) : JsValue :=
  edits.foldl (fun acc q => if q.1 == f then q.2 else acc) JsValue.vUndef

/-- Modelled from the wording of the spec invariant: the pending map a
sequence of same-row edits should produce — nothing when no edit was
effective, else a single entry keyed by the row identifier whose original is
the row state at the first effective edit and whose changes accumulate the
effective writes last-write-wins. -/
def specPendingOfEdits (r : String) (evs : List (CellEvent × Nat)) : PendingMap :=
  match evs.filter (fun en => effectiveEv en.1) with
  | [] => []
  | e0 :: rest =>
    [(r, ⟨e0.1.data, lastWrites ((e0 :: rest).map (fun en => editOf en.1))⟩)]

/-- Recognizer for bulk requests among issued calls. -/
def isBulkCall : NetCall → Bool
  | NetCall.postBulk _ => true
  | _ => false

/-- Recognizer for delete requests among issued calls. -/
def isDeleteCall : NetCall → Bool
  | NetCall.deleteItem _ => true
  | _ => false

/-- Specification-side recursion: the changes object after threading a list
of edit events through the per-event write (ineffective events skipped). -/
def changesAfter (c : Obj) : List (CellEvent × Nat) → Obj
  | [] => c
  | en :: rest =>
    changesAfter (if effectiveEv en.1 then objSet c en.1.field en.1.newValue else c) rest
/-- The row schema used in concrete checks: one required Text field. -/
def titleSchema : List FieldDef := [⟨"Title", "Title", "Text", true, []⟩]

/-- A schema with a required Number field and a required Boolean field. -/
def numBoolSchema : List FieldDef :=
  [⟨"Amount", "Amount", "Number", true, []⟩, ⟨"Done", "Done", "Boolean", true, []⟩]

/-- A benign fields response (no error). -/
def okFieldsResp : FieldsResp := ⟨JsValue.vUndef, []⟩

/-- A benign data response (no error). -/
def okDataResp : DataResp := ⟨JsValue.vUndef, [], 0⟩
/-- The concrete pending map used in witnesses: one new row entered through
the temporary-token path and one existing row with backend ID 7. -/
def witnessPending : PendingMap :=
  [("new_5", ⟨[("Title", JsValue.vStr "a")], [("Title", JsValue.vStr "b")]⟩),
   ("7", ⟨[("ID", JsValue.vStr "7"), ("Status", JsValue.vStr "Open")],
          [("Status", JsValue.vStr "Closed")]⟩)]

/-- A bulk endpoint that accepts every submission. -/
def okBulk : List Operation → BulkResp := fun _ => ⟨true, ""⟩

/-- A bulk endpoint that rejects every submission with a fixed payload. -/
def failBulk : List Operation → BulkResp := fun _ => ⟨false, "[boom]"⟩
/-- Row ID 7 as shown before the first scenario edit. -/
def c1row0 : Obj :=
  [("ID", JsValue.vStr "7"), ("Status", JsValue.vStr "Open"), ("Owner", JsValue.vStr "Alice")]

/-- Row ID 7 as shown before the second scenario edit. -/
def c1row1 : Obj :=
  [("ID", JsValue.vStr "7"), ("Status", JsValue.vStr "Closed"), ("Owner", JsValue.vStr "Alice")]

/-- The spec scenario: edit Status from Open to Closed, then Owner from
Alice to Bob, on the row with backend ID 7. -/
def c1edits : List (CellEvent × Nat) :=
  [(⟨c1row0, "Status", JsValue.vStr "Closed", JsValue.vStr "Open"⟩, 100),
   (⟨c1row1, "Owner", JsValue.vStr "Bob", JsValue.vStr "Alice"⟩, 200)]

/-- Two effective edits to a single row that has no backend ID, with the
clock reading 1 at the first edit and 2 at the second. -/
def cexEdits : List (CellEvent × Nat) :=
  [(⟨[("Title", JsValue.vStr "a")], "Title", JsValue.vStr "b", JsValue.vStr "a"⟩, 1),
   (⟨[("Title", JsValue.vStr "b")], "Title", JsValue.vStr "c", JsValue.vStr "b"⟩, 2)]
/-- The three selected rows of the spec scenario for deletion. -/
def delRows : List Obj :=
  [[("ID", JsValue.vStr "1")], [("ID", JsValue.vStr "2")], [("ID", JsValue.vStr "3")]]

/-- A delete endpoint on which exactly the row with ID 2 fails. -/
def failSecond : String → Bool := fun id => !(id == "2")

theorem getField_objSet (o : Obj) (k : String) (v : JsValue) (f : String) :
    getField (objSet o k v) f = if k == f then v else getField o f := by
  induction o with
  | nil => simp [objSet, getField]
  | cons p rest ih =>
    rcases p with ⟨k1, v1⟩
    by_cases h1 : k1 = k
    · subst h1
      by_cases h2 : k1 = f
      · subst h2; simp [objSet, getField]
      · simp [objSet, getField, h2]
    · by_cases h2 : k1 = f
      · subst h2
        have hkf : ¬ k = k1 := fun h => h1 h.symm
        simp [objSet, getField, h1, hkf]
      · simp [objSet, getField, h1, h2, ih]

theorem foldl_push_pair {α β : Type} (p : α → Bool) (f g : α → β) :
    ∀ (l : List α) (init : List β),
      l.foldl (fun acc x => if p x then acc ++ [f x] else acc ++ [g x]) init
        = init ++ l.map (fun x => if p x then f x else g x) := by
  intro l
  induction l with
  | nil => intro init; simp
  | cons x xs ih =>
    intro init
    by_cases h : p x <;> simp [h, ih]

theorem foldl_push_if {α β : Type} (p : α → Bool) (f : α → β) :
    ∀ (l : List α) (init : List β),
      l.foldl (fun acc x => if p x then acc ++ [f x] else acc) init
        = init ++ (l.filter p).map f := by
  intro l
  induction l with
  | nil => intro init; simp
  | cons x xs ih =>
    intro init
    by_cases h : p x <;> simp [h, ih, List.filter_cons]

theorem getField_foldl_objSet :
    ∀ (l : List (String × JsValue)) (o : Obj) (f : String),
      getField (l.foldl (fun a q => objSet a q.1 q.2) o) f
        = l.foldl (fun acc q => if q.1 == f then q.2 else acc) (getField o f) := by
  intro l
  induction l with
  | nil => intro o f; rfl
  | cons q qs ih =>
    intro o f
    simp only [List.foldl_cons, ih, getField_objSet]

theorem getField_lastWrites (l : List (String × JsValue)) (f : String) :
    getField (lastWrites l) f = lastValueWritten l f := by
  simp [lastWrites, lastValueWritten, getField_foldl_objSet, getField]

theorem hasField_mem (o : Obj) (f : String) :
    hasField o f = true ↔ f ∈ o.map Prod.fst := by
  simp only [hasField, List.any_eq_true, List.mem_map]
  constructor
  · rintro ⟨p, hp, hpf⟩
    exact ⟨p, hp, by simpa using hpf⟩
  · rintro ⟨p, hp, hpf⟩
    exact ⟨p, hp, by simpa using hpf⟩

theorem getField_mergeObjs (b : Obj) :
    ∀ (a : Obj) (f : String), (b.map Prod.fst).Nodup →
      getField (mergeObjs a b) f
        = if hasField b f then getField b f else getField a f := by
  induction b with
  | nil => intro a f _; simp [mergeObjs, hasField, getField]
  | cons q rest ih =>
    intro a f hnd
    rcases q with ⟨k, v⟩
    simp only [List.map_cons, List.nodup_cons] at hnd
    have step : mergeObjs a ((k, v) :: rest) = mergeObjs (objSet a k v) rest := rfl
    rw [step, ih (objSet a k v) f hnd.2]
    by_cases hr : hasField rest f
    · have hf : f ∈ rest.map Prod.fst := (hasField_mem rest f).1 hr
      have hkf : ¬ k = f := fun h => hnd.1 (h ▸ hf)
      simp only [hasField] at hr ⊢
      simp [getField, hr, hkf]
    · have hrf : hasField rest f = false := by simpa using hr
      simp only [hasField] at hrf ⊢
      by_cases hkf : k = f
      · subst hkf
        simp [getField, hrf, getField_objSet]
      · simp [getField, hrf, hkf, getField_objSet]

theorem falsy_or_eq_empty (v : JsValue) :
    (v.falsy || (v == JsValue.vStr "")) = v.falsy := by
  cases v <;> simp [JsValue.falsy]

theorem validateRowData_eq (fields : List FieldDef) (data : Obj) :
    validateRowData fields data
      = (fields.filter (fun f => f.required && (getField data f.name).falsy)).map
          (fun f => f.title ++ " is required") := by
  unfold validateRowData
  rw [foldl_push_if (fun f => f.required
        && ((getField data f.name).falsy || (getField data f.name == JsValue.vStr "")))
      (fun f => f.title ++ " is required") fields []]
  rw [List.nil_append]
  congr 1
  apply List.filter_congr
  intro f _
  rw [falsy_or_eq_empty]

theorem mapHas_cons (k1 : String) (e1 : PendingEntry) (rest : PendingMap) (k : String) :
    mapHas ((k1, e1) :: rest) k = ((k1 == k) || mapHas rest k) := by
  simp [mapHas]

theorem mapSet_not_has (m : PendingMap) (k : String) (e : PendingEntry)
    (h : mapHas m k = false) : mapSet m k e = m ++ [(k, e)] := by
  induction m with
  | nil => rfl
  | cons p rest ih =>
    rcases p with ⟨k1, e1⟩
    rw [mapHas_cons] at h
    have h1 : (k1 == k) = false := by
      cases hk : (k1 == k) <;> simp [hk] at h ⊢
    have h2 : mapHas rest k = false := by
      cases hk : mapHas rest k <;> simp [hk, h1] at h ⊢
    simp [mapSet, h1, ih h2]

theorem mapModify_append_fresh (m : PendingMap) (k : String) (e : PendingEntry)
    (f : PendingEntry → PendingEntry) (h : mapHas m k = false) :
    mapModify (m ++ [(k, e)]) k f = m ++ [(k, f e)] := by
  induction m with
  | nil => simp [mapModify]
  | cons p rest ih =>
    rcases p with ⟨k1, e1⟩
    rw [mapHas_cons] at h
    have h1 : (k1 == k) = false := by
      cases hk : (k1 == k) <;> simp [hk] at h ⊢
    have h2 : mapHas rest k = false := by
      cases hk : mapHas rest k <;> simp [hk, h1] at h ⊢
    simp [mapModify, h1, ih h2]

theorem changesAfter_eq_foldl (evs : List (CellEvent × Nat)) :
    ∀ c : Obj,
      changesAfter c evs
        = ((evs.filter (fun en => effectiveEv en.1)).map (fun en => editOf en.1)).foldl
            (fun o q => objSet o q.1 q.2) c := by
  induction evs with
  | nil => intro c; rfl
  | cons en rest ih =>
    intro c
    by_cases h : effectiveEv en.1
    · simp [changesAfter, h, ih, List.filter_cons, editOf]
    · simp [changesAfter, h, ih, List.filter_cons]

theorem onCellChanged_known (r : String) (ent : PendingEntry) (ev : CellEvent) (now : Nat)
    (hr : rowIdOf ev.data now = r) :
    onCellChanged [(r, ent)] ev now
      = [(r, if effectiveEv ev
              then ⟨ent.original, objSet ent.changes ev.field ev.newValue⟩
              else ent)] := by
  unfold onCellChanged
  rw [hr]
  by_cases h : effectiveEv ev
  · have hb : (ev.newValue != ev.oldValue) = true := h
    simp only [hb, if_true, h]
    have hhas : mapHas [(r, ent)] r = true := by simp [mapHas]
    simp [hhas, mapModify]
  · have hb : (ev.newValue != ev.oldValue) = false := by simpa [effectiveEv] using h
    simp [hb, h]

theorem runEdits_single_entry (r : String) :
    ∀ (evs : List (CellEvent × Nat)) (ent : PendingEntry),
      (∀ en ∈ evs, rowIdOf en.1.data en.2 = r) →
      runEdits [(r, ent)] evs = [(r, ⟨ent.original, changesAfter ent.changes evs⟩)] := by
  intro evs
  induction evs with
  | nil => intro ent _; rfl
  | cons en rest ih =>
    intro ent hall
    have hr : rowIdOf en.1.data en.2 = r := hall en (List.mem_cons_self en rest)
    have hrest : ∀ e ∈ rest, rowIdOf e.1.data e.2 = r :=
      fun e he => hall e (List.mem_cons_of_mem en he)
    show runEdits (onCellChanged [(r, ent)] en.1 en.2) rest = _
    rw [onCellChanged_known r ent en.1 en.2 hr]
    by_cases h : effectiveEv en.1
    · rw [if_pos h]
      rw [ih ⟨ent.original, objSet ent.changes en.1.field en.1.newValue⟩ hrest]
      simp [changesAfter, h]
    · rw [if_neg h]
      rw [ih ent hrest]
      simp [changesAfter, h]

theorem runEdits_same_row (r : String) :
    ∀ evs : List (CellEvent × Nat),
      (∀ en ∈ evs, rowIdOf en.1.data en.2 = r) →
      runEdits [] evs = specPendingOfEdits r evs := by
  intro evs
  induction evs with
  | nil => intro _; rfl
  | cons en rest ih =>
    intro hall
    have hr : rowIdOf en.1.data en.2 = r := hall en (List.mem_cons_self en rest)
    have hrest : ∀ e ∈ rest, rowIdOf e.1.data e.2 = r :=
      fun e he => hall e (List.mem_cons_of_mem en he)
    by_cases h : effectiveEv en.1
    · have hb : (en.1.newValue != en.1.oldValue) = true := h
      show runEdits (onCellChanged [] en.1 en.2) rest = _
      have hstep : onCellChanged [] en.1 en.2
          = [(r, ⟨en.1.data, objSet [] en.1.field en.1.newValue⟩)] := by
        unfold onCellChanged
        rw [hr]
        simp [hb, mapHas, mapSet, mapModify]
      rw [hstep,
        runEdits_single_entry r rest ⟨en.1.data, objSet [] en.1.field en.1.newValue⟩ hrest]
      unfold specPendingOfEdits
      simp only [List.filter_cons, h, if_true]
      rw [changesAfter_eq_foldl]
      simp [lastWrites, editOf]
    · have hb : (en.1.newValue != en.1.oldValue) = false := by simpa [effectiveEv] using h
      show runEdits (onCellChanged [] en.1 en.2) rest = _
      have hstep : onCellChanged [] en.1 en.2 = [] := by
        unfold onCellChanged
        simp [hb]
      rw [hstep, ih hrest]
      unfold specPendingOfEdits
      simp [List.filter_cons, h]

theorem deleteLoop_all_ok :
    ∀ (rows : List Obj) (ok : String → Bool),
      (∀ r ∈ rows, ok ((getField r "ID").render) = true) →
      deleteLoop rows ok
        = (rows.map (fun r => NetCall.deleteItem ((getField r "ID").render)), none) := by
  intro rows
  induction rows with
  | nil => intro ok _; rfl
  | cons row rest ih =>
    intro ok hall
    have h1 := hall row (List.mem_cons_self row rest)
    have hrest : ∀ r ∈ rest, ok ((getField r "ID").render) = true :=
      fun r hr => hall r (List.mem_cons_of_mem row hr)
    simp [deleteLoop, h1, ih ok hrest]

theorem deleteLoop_first_fail (ok : String → Bool) (bad : Obj) (post : List Obj)
    (hbad : ok ((getField bad "ID").render) = false) :
    ∀ pre : List Obj, (∀ r ∈ pre, ok ((getField r "ID").render) = true) →
      deleteLoop (pre ++ bad :: post) ok
        = (pre.map (fun r => NetCall.deleteItem ((getField r "ID").render))
            ++ [NetCall.deleteItem ((getField bad "ID").render)],
           some ("Failed to delete row " ++ (getField bad "ID").render)) := by
  intro pre
  induction pre with
  | nil => intro _; simp [deleteLoop, hbad]
  | cons p rest ih =>
    intro hall
    have h1 := hall p (List.mem_cons_self p rest)
    have hrest : ∀ r ∈ rest, ok ((getField r "ID").render) = true :=
      fun r hr => hall r (List.mem_cons_of_mem p hr)
    simp [deleteLoop, h1, ih hrest]

theorem length_beq_zero_false {α : Type} (l : List α) (h : l ≠ []) :
    (l.length == 0) = false := by
  cases l with
  | nil => exact absurd rfl h
  | cons a as => simp

theorem buildOperations_eq_map (pending : PendingMap) :
    buildOperations pending
      = pending.map (fun kv =>
          if kv.1.startsWith "new_" then
            Operation.create (mergeObjs kv.2.original kv.2.changes)
          else Operation.update kv.1 kv.2.changes) :=
  (foldl_push_pair (fun kv : String × PendingEntry => kv.1.startsWith "new_")
      (fun kv => Operation.create (mergeObjs kv.2.original kv.2.changes))
      (fun kv => Operation.update kv.1 kv.2.changes) pending []).trans
    (List.nil_append _)

/-- Claim C4 (confirmed): when the pending map is empty, saveAllChanges is a
no-op reported as informational toast and issues zero network calls. -/
theorem claimC4_saveAll_empty_noop (bulk : List Operation → BulkResp)
    (fr : FieldsResp) (dr : DataResp) :
    saveAllChanges [] bulk fr dr = ⟨[], [Toast.info "No changes to save"], []⟩ := rfl

/-- Claim C7 counterexample: a required Number field submitted with the
value 0 — a value that is neither absent nor the empty string — is still
reported by validateRowData, so the error list is not exactly one message
per required field whose value is absent or the empty string. -/
theorem claimC7_counterexample :
    validateRowData [⟨"Amount", "Amount", "Number", true, []⟩] [("Amount", JsValue.vNum 0)]
      = ["Amount is required"]
    ∧ absentOrEmpty (getField [("Amount", JsValue.vNum 0)] "Amount") = false := by
  decide

/-- Claim C7 (amended): validateRowData returns exactly one error message
per required field whose submitted value is falsy — absent, null, the empty
string, the number 0 or the boolean false — each message of the form
`<title> is required`; and when any error exists the modal submission is
rejected with no network call. -/
theorem claimC7_validate_required (fields : List FieldDef) (data : Obj)
    (item : ItemResp) (fr : FieldsResp) (dr : DataResp) (pending : PendingMap) :
    validateRowData fields data
      = (fields.filter (fun f => f.required && (getField data f.name).falsy)).map
          (fun f => f.title ++ " is required")
    ∧ (validateRowData fields data ≠ [] →
        (saveRowFromModal fields data item fr dr pending).calls = []) := by
  refine ⟨validateRowData_eq fields data, ?_⟩
  intro hne
  have hpos : (validateRowData fields data).length > 0 := List.length_pos.2 hne
  unfold saveRowFromModal
  simp [hpos]

/-- Witness for claim C7: the spec scenario — a required Title submitted as
the empty string yields exactly the one error the claim predicts and no
network call is issued. -/
theorem claimC7_witness :
    validateRowData titleSchema [("Title", JsValue.vStr "")]
      = (titleSchema.filter
          (fun f => f.required && (getField [("Title", JsValue.vStr "")] f.name).falsy)).map
          (fun f => f.title ++ " is required")
    ∧ (saveRowFromModal titleSchema [("Title", JsValue.vStr "")]
        ⟨true, JsValue.vUndef⟩ okFieldsResp okDataResp []).calls = [] :=
  ⟨(claimC7_validate_required titleSchema [("Title", JsValue.vStr "")]
      ⟨true, JsValue.vUndef⟩ okFieldsResp okDataResp []).1,
   (claimC7_validate_required titleSchema [("Title", JsValue.vStr "")]
      ⟨true, JsValue.vUndef⟩ okFieldsResp okDataResp []).2 (by decide)⟩

/-- Claim C9 (confirmed): validateRowData reports a required field whenever
its submitted value is falsy, not only when absent or empty — in particular
a present Number value 0 or Boolean value false is reported as missing. -/
theorem claimC9_falsy_values_reported (fields : List FieldDef) (data : Obj) (f : FieldDef)
    (hf : f ∈ fields) (hreq : f.required = true)
    (hfalsy : (getField data f.name).falsy = true) :
    (f.title ++ " is required") ∈ validateRowData fields data := by
  rw [validateRowData_eq]
  exact List.mem_map_of_mem _ (List.mem_filter.2 ⟨hf, by simp [hreq, hfalsy]⟩)

/-- Witness for claim C9: a required Number field submitted as 0 and a
required Boolean field submitted as false are both reported as missing,
although both values are present and are not the empty string. -/
theorem claimC9_witness :
    ("Amount" ++ " is required")
        ∈ validateRowData numBoolSchema [("Amount", JsValue.vNum 0), ("Done", JsValue.vBool false)]
    ∧ ("Done" ++ " is required")
        ∈ validateRowData numBoolSchema [("Amount", JsValue.vNum 0), ("Done", JsValue.vBool false)]
    ∧ absentOrEmpty (getField [("Amount", JsValue.vNum 0), ("Done", JsValue.vBool false)] "Amount")
        = false
    ∧ absentOrEmpty (getField [("Amount", JsValue.vNum 0), ("Done", JsValue.vBool false)] "Done")
        = false :=
  ⟨claimC9_falsy_values_reported numBoolSchema
      [("Amount", JsValue.vNum 0), ("Done", JsValue.vBool false)]
      ⟨"Amount", "Amount", "Number", true, []⟩ (by decide) (by decide) (by decide),
   claimC9_falsy_values_reported numBoolSchema
      [("Amount", JsValue.vNum 0), ("Done", JsValue.vBool false)]
      ⟨"Done", "Done", "Boolean", true, []⟩ (by decide) (by decide) (by decide),
   by decide, by decide⟩

/-- Claim C3 (confirmed): for every non-empty pending map (whose change
sets, being JavaScript objects, have unique keys), saveAllChanges builds
exactly one operation per entry — a create whose data merges original and
changes with changes taking precedence when the key is a temporary token,
an update with the row id and only the changes otherwise — and submits them
all in a single batched request. -/
theorem claimC3_operations_built (pending : PendingMap)
    (bulk : List Operation → BulkResp) (fr : FieldsResp) (dr : DataResp)
    (hne : pending ≠ [])
    (hwf : ∀ kv ∈ pending, ((kv.2.changes.map Prod.fst).Nodup)) :
    ∃ ops : List Operation,
      (saveAllChanges pending bulk fr dr).calls.filter isBulkCall = [NetCall.postBulk ops]
      ∧ ops.length = pending.length
      ∧ ∀ i : Nat, ∀ k : String, ∀ e : PendingEntry, pending[i]? = some (k, e) →
          (k.startsWith "new_" = true →
            ∃ d : Obj, ops[i]? = some (Operation.create d)
              ∧ ∀ f : String,
                  getField d f
                    = if hasField e.changes f then getField e.changes f
                      else getField e.original f)
          ∧ (k.startsWith "new_" = false →
              ops[i]? = some (Operation.update k e.changes)) := by
  have hlen : (pending.length == 0) = false := length_beq_zero_false pending hne
  refine ⟨buildOperations pending, ?_, ?_, ?_⟩
  · unfold saveAllChanges
    simp only [hlen, Bool.false_eq_true, if_false]
    by_cases hs : (bulk (buildOperations pending)).success
    · simp only [hs, if_true]
      unfold refreshData loadInitialData
      by_cases hf : fr.error.truthy
      · simp [hf, isBulkCall]
      · by_cases hd : dr.error.truthy
        · simp [hf, hd, isBulkCall]
        · simp [hf, hd, isBulkCall]
    · simp [hs, isBulkCall]
  · rw [buildOperations_eq_map]
    simp
  · intro i k e h
    have hmem : (k, e) ∈ pending := List.getElem?_mem h
    have hops : (buildOperations pending)[i]?
        = some (if k.startsWith "new_" then
                  Operation.create (mergeObjs e.original e.changes)
                else Operation.update k e.changes) := by
      rw [buildOperations_eq_map, List.getElem?_map, h]
      rfl
    constructor
    · intro hnew
      refine ⟨mergeObjs e.original e.changes, ?_, ?_⟩
      · rw [hops, hnew]
        simp
      · intro f
        exact getField_mergeObjs e.changes e.original f (hwf (k, e) hmem)
    · intro hold
      rw [hops, hold]
      simp

/-- Witness for claim C3: the concrete two-entry pending map yields a
single bulk request with one create (merged data) and one update. -/
theorem claimC3_witness :
    (witnessPending ≠ []
      ∧ ∀ kv ∈ witnessPending, ((kv.2.changes.map Prod.fst).Nodup))
    ∧ ∃ ops : List Operation,
        (saveAllChanges witnessPending okBulk okFieldsResp okDataResp).calls.filter isBulkCall
          = [NetCall.postBulk ops]
        ∧ ops.length = witnessPending.length
        ∧ ∀ i : Nat, ∀ k : String, ∀ e : PendingEntry, witnessPending[i]? = some (k, e) →
            (k.startsWith "new_" = true →
              ∃ d : Obj, ops[i]? = some (Operation.create d)
                ∧ ∀ f : String,
                    getField d f
                      = if hasField e.changes f then getField e.changes f
                        else getField e.original f)
            ∧ (k.startsWith "new_" = false →
                ops[i]? = some (Operation.update k e.changes)) :=
  ⟨⟨by decide, by decide⟩,
   claimC3_operations_built witnessPending okBulk okFieldsResp okDataResp
     (by decide) (by decide)⟩

/-- Claim C5 (confirmed): after a saveAllChanges whose bulk request reports
success (and whose subsequent schema fetch is not an error), the pending map
is empty and a fresh fetch of the row data has been issued. -/
theorem claimC5_success_clears_and_refetches (pending : PendingMap)
    (bulk : List Operation → BulkResp) (fr : FieldsResp) (dr : DataResp)
    (hne : pending ≠ [])
    (hsucc : (bulk (buildOperations pending)).success = true)
    (hfr : fr.error.truthy = false) :
    (saveAllChanges pending bulk fr dr).pending = []
    ∧ NetCall.getData ∈ (saveAllChanges pending bulk fr dr).calls := by
  have hlen : (pending.length == 0) = false := length_beq_zero_false pending hne
  unfold saveAllChanges
  simp only [hlen, Bool.false_eq_true, if_false, hsucc, if_true]
  constructor
  · rfl
  · unfold refreshData loadInitialData
    by_cases hd : dr.error.truthy
    · simp [hfr, hd]
    · simp [hfr, hd]

/-- Witness for claim C5: the concrete pending map committed against an
accepting bulk endpoint leaves no pending entry and refetches the data. -/
theorem claimC5_witness :
    (witnessPending ≠ []
      ∧ (okBulk (buildOperations witnessPending)).success = true
      ∧ okFieldsResp.error.truthy = false)
    ∧ (saveAllChanges witnessPending okBulk okFieldsResp okDataResp).pending = []
    ∧ NetCall.getData ∈ (saveAllChanges witnessPending okBulk okFieldsResp okDataResp).calls :=
  ⟨⟨by decide, by decide, by decide⟩,
   claimC5_success_clears_and_refetches witnessPending okBulk okFieldsResp okDataResp
     (by decide) (by decide) (by decide)⟩

/-- Claim C6 (confirmed): when the bulk request reports failure,
saveAllChanges surfaces one aggregate error toast carrying the reported
failures, issues no further request (no rollback, no retry), and leaves the
pending map unchanged. -/
theorem claimC6_failure_preserves_state (pending : PendingMap)
    (bulk : List Operation → BulkResp) (fr : FieldsResp) (dr : DataResp)
    (hne : pending ≠ [])
    (hfail : (bulk (buildOperations pending)).success = false) :
    (saveAllChanges pending bulk fr dr).pending = pending
    ∧ (saveAllChanges pending bulk fr dr).calls = [NetCall.postBulk (buildOperations pending)]
    ∧ (saveAllChanges pending bulk fr dr).toasts
        = [Toast.error ("Error saving changes: "
            ++ ("Some operations failed: " ++ (bulk (buildOperations pending)).errors))] := by
  have hlen : (pending.length == 0) = false := length_beq_zero_false pending hne
  unfold saveAllChanges
  simp [hlen, hfail]

/-- Witness for claim C6: committing the concrete pending map against a
rejecting bulk endpoint leaves it untouched, issues exactly the one bulk
request and shows the aggregate error. -/
theorem claimC6_witness :
    (witnessPending ≠ [] ∧ (failBulk (buildOperations witnessPending)).success = false)
    ∧ (saveAllChanges witnessPending failBulk okFieldsResp okDataResp).pending = witnessPending
    ∧ (saveAllChanges witnessPending failBulk okFieldsResp okDataResp).calls
        = [NetCall.postBulk (buildOperations witnessPending)]
    ∧ (saveAllChanges witnessPending failBulk okFieldsResp okDataResp).toasts
        = [Toast.error ("Error saving changes: "
            ++ ("Some operations failed: " ++ (failBulk (buildOperations witnessPending)).errors))] :=
  ⟨⟨by decide, by decide⟩,
   (claimC6_failure_preserves_state witnessPending failBulk okFieldsResp okDataResp
      (by decide) (by decide)).1,
   (claimC6_failure_preserves_state witnessPending failBulk okFieldsResp okDataResp
      (by decide) (by decide)).2.1,
   (claimC6_failure_preserves_state witnessPending failBulk okFieldsResp okDataResp
      (by decide) (by decide)).2.2⟩

/-- Claim C10 (confirmed): every successful single-row create through the
modal path triggers the full refresh, which unconditionally clears the
whole pending map — any uncommitted grid edits present at that moment are
silently discarded. -/
theorem claimC10_modal_create_discards_pending (fields : List FieldDef) (data : Obj)
    (item : ItemResp) (fr : FieldsResp) (dr : DataResp) (pending : PendingMap)
    (hval : validateRowData fields data = [])
    (hsucc : item.success = true) :
    (saveRowFromModal fields data item fr dr pending).pending = []
    ∧ NetCall.getFields ∈ (saveRowFromModal fields data item fr dr pending).calls := by
  unfold saveRowFromModal
  simp only [hval, List.length_nil, gt_iff_lt, Nat.lt_irrefl, if_false, hsucc, if_true]
  constructor
  · rfl
  · unfold refreshData loadInitialData
    by_cases hf : fr.error.truthy
    · simp [hf]
    · by_cases hd : dr.error.truthy
      · simp [hf, hd]
      · simp [hf, hd]

/-- Witness for claim C10: a valid modal submission accepted by the backend
wipes a pending map holding an unrelated uncommitted edit. -/
theorem claimC10_witness :
    (validateRowData titleSchema [("Title", JsValue.vStr "x")] = []
      ∧ (⟨true, JsValue.vUndef⟩ : ItemResp).success = true)
    ∧ (saveRowFromModal titleSchema [("Title", JsValue.vStr "x")]
        ⟨true, JsValue.vUndef⟩ okFieldsResp okDataResp witnessPending).pending = []
    ∧ NetCall.getFields ∈ (saveRowFromModal titleSchema [("Title", JsValue.vStr "x")]
        ⟨true, JsValue.vUndef⟩ okFieldsResp okDataResp witnessPending).calls :=
  ⟨⟨by decide, by decide⟩,
   (claimC10_modal_create_discards_pending titleSchema [("Title", JsValue.vStr "x")]
      ⟨true, JsValue.vUndef⟩ okFieldsResp okDataResp witnessPending (by decide) (by decide)).1,
   (claimC10_modal_create_discards_pending titleSchema [("Title", JsValue.vStr "x")]
      ⟨true, JsValue.vUndef⟩ okFieldsResp okDataResp witnessPending (by decide) (by decide)).2⟩

/-- Claim C1 counterexample: for the two edits of `cexEdits` — both to the
same ID-less row — the pending map ends with two entries, not at most one,
and the original of the later entry is the row state at the second edit, not at
the first. -/
theorem claimC1_counterexample :
    runEdits [] cexEdits
      = [("new_1", ⟨[("Title", JsValue.vStr "a")], [("Title", JsValue.vStr "b")]⟩),
         ("new_2", ⟨[("Title", JsValue.vStr "b")], [("Title", JsValue.vStr "c")]⟩)]
    ∧ (runEdits [] cexEdits).length = 2 := by
  decide

/-- Claim C1 (amended): restricted to edit sequences whose computed row
identifier is constant — in particular every sequence of edits to a row
with a truthy backend ID — the pending map holds at most one entry, its
changes accumulate the effective edits last-write-wins per field, and its
original is the row state at the first effective edit, captured when the
entry is created.  (Rows without a backend ID get a fresh identifier per
edit timestamp, so their edits at distinct timestamps create separate
entries, as the counterexample shows.) -/
theorem claimC1_same_row_merge (r : String) (evs : List (CellEvent × Nat))
    (hall : ∀ en ∈ evs, rowIdOf en.1.data en.2 = r) :
    runEdits [] evs = specPendingOfEdits r evs
    ∧ (runEdits [] evs).length ≤ 1
    ∧ (∀ ent : PendingEntry, mapGet (runEdits [] evs) r = some ent →
        ∀ f : String,
          getField ent.changes f
            = lastValueWritten
                ((evs.filter (fun en => effectiveEv en.1)).map (fun en => editOf en.1)) f) := by
  have heq := runEdits_same_row r evs hall
  refine ⟨heq, ?_, ?_⟩
  · rw [heq]
    unfold specPendingOfEdits
    cases evs.filter (fun en => effectiveEv en.1) with
    | nil => simp
    | cons e0 rest => simp
  · intro ent hent f
    rw [heq] at hent
    unfold specPendingOfEdits at hent
    cases hf : evs.filter (fun en => effectiveEv en.1) with
    | nil =>
      rw [hf] at hent
      simp [mapGet] at hent
    | cons e0 rest =>
      rw [hf] at hent
      simp [mapGet] at hent
      rw [← hent]
      simp only [List.map_cons]
      exact getField_lastWrites _ f

/-- Witness for claim C1: the spec scenario on row ID 7 — both edits compute
identifier 7, and the pending map ends with the single merged entry whose
changes are Status Closed and Owner Bob and whose original is the state at
the first edit. -/
theorem claimC1_witness :
    (∀ en ∈ c1edits, rowIdOf en.1.data en.2 = "7")
    ∧ runEdits [] c1edits = specPendingOfEdits "7" c1edits
    ∧ runEdits [] c1edits
        = [("7", ⟨c1row0, [("Status", JsValue.vStr "Closed"), ("Owner", JsValue.vStr "Bob")]⟩)] :=
  ⟨by decide, (claimC1_same_row_merge "7" c1edits (by decide)).1, by decide⟩

/-- Claim C2 counterexample: after the two edits of `cexEdits` to the same
ID-less row, the map holds an entry keyed new_2 — the second edit minted a
fresh token instead of reusing new_1 — and the entry at new_1 does not carry
the change of the second edit. -/
theorem claimC2_counterexample :
    mapGet (runEdits [] cexEdits) "new_1"
      = some ⟨[("Title", JsValue.vStr "a")], [("Title", JsValue.vStr "b")]⟩
    ∧ mapHas (runEdits [] cexEdits) "new_2" = true := by
  decide

/-- Claim C2 (amended): for a row without a truthy backend ID the tracker
recomputes the identifier `new_<currentTimestamp>` on every edit instead of
storing it: an effective edit whose freshly computed token is not yet in
the map appends a brand-new entry under that token (so edits at distinct
timestamps do not share an entry); rows with a truthy backend ID use that
ID as the key. -/
theorem claimC2_token_not_reused (p : PendingMap) (ev : CellEvent) (t : Nat)
    (hid : (getField ev.data "ID").truthy = false)
    (heff : (ev.newValue != ev.oldValue) = true)
    (hfresh : mapHas p ("new_" ++ toString t) = false) :
    rowIdOf ev.data t = "new_" ++ toString t
    ∧ onCellChanged p ev t
        = p ++ [("new_" ++ toString t, ⟨ev.data, objSet [] ev.field ev.newValue⟩)]
    ∧ (∀ d : Obj, (getField d "ID").truthy = true → rowIdOf d t = (getField d "ID").render) := by
  have hrid : rowIdOf ev.data t = "new_" ++ toString t := by
    simp [rowIdOf, hid]
  refine ⟨hrid, ?_, ?_⟩
  · unfold onCellChanged
    rw [hrid, heff]
    simp only [if_true, hfresh, Bool.false_eq_true, if_false]
    rw [mapSet_not_has p _ _ hfresh,
      mapModify_append_fresh p _ ⟨ev.data, []⟩ _ hfresh]
  · intro d hd
    simp [rowIdOf, hd]

/-- Witness for claim C2: an effective edit to an ID-less row at timestamp 1,
with an unrelated entry already pending, appends the entry new_1. -/
theorem claimC2_witness :
    ((getField [("Title", JsValue.vStr "a")] "ID").truthy = false
      ∧ (JsValue.vStr "b" != JsValue.vStr "a") = true
      ∧ mapHas witnessPending ("new_" ++ toString 1) = false)
    ∧ rowIdOf [("Title", JsValue.vStr "a")] 1 = "new_" ++ toString 1
    ∧ onCellChanged witnessPending
        ⟨[("Title", JsValue.vStr "a")], "Title", JsValue.vStr "b", JsValue.vStr "a"⟩ 1
        = witnessPending
          ++ [("new_" ++ toString 1,
               ⟨[("Title", JsValue.vStr "a")], objSet [] "Title" (JsValue.vStr "b")⟩)] :=
  ⟨⟨by decide, by decide, by decide⟩,
   (claimC2_token_not_reused witnessPending
      ⟨[("Title", JsValue.vStr "a")], "Title", JsValue.vStr "b", JsValue.vStr "a"⟩ 1
      (by decide) (by decide) (by decide)).1,
   (claimC2_token_not_reused witnessPending
      ⟨[("Title", JsValue.vStr "a")], "Title", JsValue.vStr "b", JsValue.vStr "a"⟩ 1
      (by decide) (by decide) (by decide)).2.1⟩

/-- Claim C8 (confirmed): for a non-empty selection, the confirmed delete
issues exactly one delete request per selected row, sequentially in
selection order; when a delete fails it aborts after that request — the
rows deleted before the failure got their requests (and nothing undoes
them), the later rows get none — and the error toast names the failed row. -/
theorem claimC8_sequential_delete_abort (pre : List Obj) (bad : Obj) (post : List Obj)
    (ok : String → Bool) (fr : FieldsResp) (dr : DataResp)
    (hpre : ∀ r ∈ pre, ok ((getField r "ID").render) = true)
    (hbad : ok ((getField bad "ID").render) = false) :
    (deleteSelectedRows (pre ++ bad :: post) ok fr dr).calls
      = pre.map (fun r => NetCall.deleteItem ((getField r "ID").render))
        ++ [NetCall.deleteItem ((getField bad "ID").render)]
    ∧ (deleteSelectedRows (pre ++ bad :: post) ok fr dr).toasts
      = [Toast.error ("Error deleting rows: "
          ++ ("Failed to delete row " ++ (getField bad "ID").render))]
    ∧ (∀ rows : List Obj, rows ≠ [] →
        (∀ r ∈ rows, ok ((getField r "ID").render) = true) →
        (deleteSelectedRows rows ok fr dr).calls.filter isDeleteCall
          = rows.map (fun r => NetCall.deleteItem ((getField r "ID").render))) := by
  have hne : pre ++ bad :: post ≠ [] := by simp
  have hlen : ((pre ++ bad :: post).length == 0) = false := length_beq_zero_false _ hne
  have hloop := deleteLoop_first_fail ok bad post hbad pre hpre
  refine ⟨?_, ?_, ?_⟩
  · unfold deleteSelectedRows
    simp only [hlen, Bool.false_eq_true, if_false, hloop]
  · unfold deleteSelectedRows
    simp only [hlen, Bool.false_eq_true, if_false, hloop]
  · intro rows hrne hall
    have hrlen : (rows.length == 0) = false := length_beq_zero_false _ hrne
    unfold deleteSelectedRows
    simp only [hrlen, Bool.false_eq_true, if_false, deleteLoop_all_ok rows ok hall]
    unfold loadInitialData
    by_cases hf : fr.error.truthy
    · simp [hf, isDeleteCall, List.filter_append, List.filter_map, Function.comp_def,
        List.filter_true]
    · by_cases hd : dr.error.truthy
      · simp [hf, hd, isDeleteCall, List.filter_append, List.filter_map, Function.comp_def,
          List.filter_true]
      · simp [hf, hd, isDeleteCall, List.filter_append, List.filter_map, Function.comp_def,
          List.filter_true]

/-- Witness for claim C8: deleting three rows where the second delete fails
issues the deletes for rows 1 and 2 only, and the error names row 2. -/
theorem claimC8_witness :
    ((∀ r ∈ [[("ID", JsValue.vStr "1")]], failSecond ((getField r "ID").render) = true)
      ∧ failSecond ((getField [("ID", JsValue.vStr "2")] "ID").render) = false)
    ∧ (deleteSelectedRows delRows failSecond okFieldsResp okDataResp).calls
        = [[("ID", JsValue.vStr "1")]].map
            (fun r => NetCall.deleteItem ((getField r "ID").render))
          ++ [NetCall.deleteItem ((getField [("ID", JsValue.vStr "2")] "ID").render)]
    ∧ (deleteSelectedRows delRows failSecond okFieldsResp okDataResp).toasts
        = [Toast.error ("Error deleting rows: "
            ++ ("Failed to delete row "
                ++ (getField [("ID", JsValue.vStr "2")] "ID").render))] :=
  ⟨⟨by decide, by decide⟩,
   (claimC8_sequential_delete_abort [[("ID", JsValue.vStr "1")]] [("ID", JsValue.vStr "2")]
      [[("ID", JsValue.vStr "3")]] failSecond okFieldsResp okDataResp
      (by decide) (by decide)).1,
   (claimC8_sequential_delete_abort [[("ID", JsValue.vStr "1")]] [("ID", JsValue.vStr "2")]
      [[("ID", JsValue.vStr "3")]] failSecond okFieldsResp okDataResp
      (by decide) (by decide)).2.1⟩
